import Mathlib

/-!
# Shallow embedding of the edflib-rs writer orchestration layer

This file embeds the writer-side orchestration of the `edflib-rs` crate
(`src/base.rs`, `src/writer.rs`) and proves the specification claims about it.

* The external codec engine (the C `edflib` library) is modelled as a pure
  responder `Engine : EngineCall → Int`: every FFI call made by the layer is
  recorded as an `EngineCall` value and the engine answers with a signed
  status (negative means failure; for `openFile` the answer is the handle).
  Every operation returns, besides its result, the ordered list of engine
  calls it issued, so "issues no engine call" and "one write per chunk" are
  statements about that trace.
* `f64` sample values appear in these claims only through cloning and the
  IEEE equality used by `Vec::contains`, so they are modelled as `EFloat`:
  a rational number or NaN, with an equality test that is false whenever
  NaN is involved (as IEEE `==` is).
* Machine integers are modelled as `Int`/`Nat` with explicit two's-complement
  wrapping (`wrapI32`, `wrapI64`) exactly where the source casts (`as i32`,
  `as i64`, `as usize`) can wrap.
* The `Arc<Mutex<Inner>>` in `Edf` only serialises access to the handle;
  the embedded operations are the sequential behaviour each caller observes,
  with the handle state passed explicitly.
-/

set_option autoImplicit false

namespace Edflib

/-- Model of `f64` restricted to the operations the source performs on
sample values: copying and IEEE `==` (used by `Vec::contains`). -/
inductive EFloat where
  | nan
  | val (q : ℚ)
deriving DecidableEq, Repr

/-- IEEE `==` on the float model: false whenever either side is NaN. -/
def EFloat.ieeeEq : EFloat → EFloat → Bool
  | .val a, .val b => a == b
  | _, _ => false

/-- `channel_data.contains(&f64::NAN)` from `writer.rs`: Rust slice
`contains` tests each element with IEEE `==` against the needle. -/
def listContainsNaN (xs : List EFloat) : Bool :=
  xs.any fun x => EFloat.ieeeEq x EFloat.nan

/-- Two's-complement wrap to `i32` (the effect of `as i32`). -/
def wrapI32 (n : Int) : Int :=
  (n + 2 ^ 31) % 2 ^ 32 - 2 ^ 31

/-- Two's-complement wrap to `i64` (the effect of `as i64` and of wrapping
`i64` arithmetic). -/
def wrapI64 (n : Int) : Int :=
  (n + 2 ^ 63) % 2 ^ 64 - 2 ^ 63

/-- The effect of casting an `i32` value to `usize` on a 64-bit target:
sign-extend to 64 bits and reinterpret as unsigned. -/
def usizeOfI32 (n : Int) : Nat :=
  (n % 2 ^ 64).toNat

/-- `Filetype` from `base.rs`. -/
inductive Filetype where
  | EDF
  | BDF
deriving DecidableEq, Repr

/-- `Filetype::from` in `base.rs`: "edf" and "bdf" are recognised, anything
else defaults to EDF. -/
def Filetype.«from» : String → Filetype
  | "edf" => Filetype.EDF
  | "bdf" => Filetype.BDF
  | _ => Filetype.EDF

/-- `EDFLIB_FILETYPE_EDFPLUS` / `EDFLIB_FILETYPE_BDFPLUS` as passed to
`edfopen_file_writeonly`. -/
def Filetype.plusCode : Filetype → Int
  | Filetype.EDF => 1
  | Filetype.BDF => 3

/-- Characters after the last dot of a character list, `none` when there
is no dot. -/
def extOfChars : List Char → Option (List Char)
  | [] => none
  | '.' :: rest =>
    match extOfChars rest with
    | some e => some e
    | none => some rest
  | _ :: rest => extOfChars rest

/-- Extension of a path: the part after the last dot, `""` when there is
none.  (The source unwraps a present extension; paths without one are
outside every property proved here.) -/
def pathExtension (p : String) : String :=
  match extOfChars p.data with
  | some cs => String.mk cs
  | none => ""

/-- One FFI call into the codec engine, with the arguments the orchestration
layer passes.  Mirrors the `edflib-sys` functions used in `base.rs`. -/
inductive EngineCall where
  | openFile (path : String) (filetype : Int) (numberOfSignals : Int)
  | setEquipment (hdl : Int) (s : String)
  | setPatientname (hdl : Int) (s : String)
  | setPatientcode (hdl : Int) (s : String)
  | setSex (hdl : Int) (v : Int)
  | setAdmincode (hdl : Int) (s : String)
  | setTechnician (hdl : Int) (s : String)
  | setLabel (hdl : Int) (sig : Int) (s : String)
  | setTransducer (hdl : Int) (sig : Int) (s : String)
  | setDigitalMaximum (hdl : Int) (sig : Int) (v : Int)
  | setDigitalMinimum (hdl : Int) (sig : Int) (v : Int)
  | setPhysicalMaximum (hdl : Int) (sig : Int) (v : EFloat)
  | setPhysicalMinimum (hdl : Int) (sig : Int) (v : EFloat)
  | setPhysicalDimension (hdl : Int) (sig : Int) (s : String)
  | setSamplefrequency (hdl : Int) (sig : Int) (v : Int)
  | setDatarecordDuration (hdl : Int) (ticks : Int)
  | writePhysicalSamples (hdl : Int) (buf : List EFloat)
  | writeAnnot (hdl : Int) (onset : Int) (duration : Int) (description : String)
  | closeFile (hdl : Int)
deriving DecidableEq, Repr

/-- The codec engine, modelled as a responder: for each call it returns the
signed status the C library would (for `openFile`, the handle). -/
def Engine : Type := EngineCall → Int

/-- The error taxonomy of the layer.  The source returns `anyhow` errors
with one fixed message per failure site; each distinct site is one
constructor (with the site's name as the `ConfigError` field). -/
inductive Err where
  | openError
  | configError (field : String)
  | shapeError
  | writeError
  | annotError
  | closeError
  | channelCountError (given expected : Nat)
  | notOpen
deriving DecidableEq, Repr

/-- Result of one layer operation: `Ok`/`Err` plus the ordered engine-call
trace it produced. -/
abbrev CallResult := Except Err Unit × List EngineCall

/-- Sequencing of two fallible operations, as the `?` operator does in the
source: the second runs only when the first succeeded, traces concatenate. -/
def seq (a : CallResult) (b : Unit → CallResult) : CallResult :=
  match a with
  | (Except.error e, tr) => (Except.error e, tr)
  | (Except.ok _, tr) =>
    let r := b ()
    (r.1, tr ++ r.2)

/-- The one-engine-call pattern every `base.rs` setter follows: make the
call; a negative status becomes the given error. -/
def engineCall (eng : Engine) (c : EngineCall) (e : Err) : CallResult :=
  if eng c < 0 then (Except.error e, [c]) else (Except.ok (), [c])

/-- The `Edf` struct of `base.rs` with its `Inner` flattened: path, current
handle, filetype tag, number of signals. -/
structure Edf where
  path : String
  hdl : Int
  filetype : Filetype
  number_of_signals : Int
deriving DecidableEq, Repr

/-- `Edf::new`: handle starts at `0`, filetype at `EDF`. -/
def Edf.new (path : String) (number_of_signals : Int) : Edf :=
  { path := path, hdl := 0, filetype := Filetype.EDF,
    number_of_signals := number_of_signals }

/-- `Edf::open_file_writeonly`: derive the filetype from the path extension,
call the engine's open, store the returned handle (even a negative one),
fail when it is negative. -/
def Edf.open_file_writeonly (eng : Engine) (e : Edf) :
    Except Err Unit × List EngineCall × Edf :=
  let ft := Filetype.«from» (pathExtension e.path)
  let c := EngineCall.openFile e.path ft.plusCode e.number_of_signals
  let hdl := eng c
  let e' := { e with hdl := hdl }
  if hdl < 0 then (Except.error Err.openError, [c], e')
  else (Except.ok (), [c], e')

/-- `Edf::finish`: one engine close call on the stored handle. -/
def Edf.finish (eng : Engine) (e : Edf) : CallResult :=
  engineCall eng (EngineCall.closeFile e.hdl) Err.closeError

def Edf.set_patientname (eng : Engine) (e : Edf) (patientname : String) : CallResult :=
  engineCall eng (EngineCall.setPatientname e.hdl patientname)
    (Err.configError "set_patientname")

def Edf.set_patientcode (eng : Engine) (e : Edf) (patientcode : String) : CallResult :=
  engineCall eng (EngineCall.setPatientcode e.hdl patientcode)
    (Err.configError "set_patientcode")

def Edf.set_admincode (eng : Engine) (e : Edf) (admincode : String) : CallResult :=
  engineCall eng (EngineCall.setAdmincode e.hdl admincode)
    (Err.configError "set_admincode")

def Edf.set_technician (eng : Engine) (e : Edf) (technician : String) : CallResult :=
  engineCall eng (EngineCall.setTechnician e.hdl technician)
    (Err.configError "set_technician")

def Edf.set_sex (eng : Engine) (e : Edf) (sex : Int) : CallResult :=
  engineCall eng (EngineCall.setSex e.hdl sex) (Err.configError "set_sex")

def Edf.set_transducer (eng : Engine) (e : Edf) (edfsignal : Int) (transducer : String) :
    CallResult :=
  engineCall eng (EngineCall.setTransducer e.hdl edfsignal transducer)
    (Err.configError "set_transducer")

def Edf.set_samplefrequency (eng : Engine) (e : Edf) (edfsignal : Int)
    (samplefrequency : Int) : CallResult :=
  engineCall eng (EngineCall.setSamplefrequency e.hdl edfsignal samplefrequency)
    (Err.configError "set_samplefrequency")

def Edf.set_digital_maximum (eng : Engine) (e : Edf) (edfsignal : Int) (dig_max : Int) :
    CallResult :=
  engineCall eng (EngineCall.setDigitalMaximum e.hdl edfsignal dig_max)
    (Err.configError "set_digital_maximum")

def Edf.set_digital_minimum (eng : Engine) (e : Edf) (edfsignal : Int) (dig_min : Int) :
    CallResult :=
  engineCall eng (EngineCall.setDigitalMinimum e.hdl edfsignal dig_min)
    (Err.configError "set_digital_minimum")

def Edf.set_physical_maximum (eng : Engine) (e : Edf) (edfsignal : Int) (v : EFloat) :
    CallResult :=
  engineCall eng (EngineCall.setPhysicalMaximum e.hdl edfsignal v)
    (Err.configError "set_physical_maximum")

def Edf.set_physical_minimum (eng : Engine) (e : Edf) (edfsignal : Int) (v : EFloat) :
    CallResult :=
  engineCall eng (EngineCall.setPhysicalMinimum e.hdl edfsignal v)
    (Err.configError "set_physical_minimum")

def Edf.set_physical_dimension (eng : Engine) (e : Edf) (edfsignal : Int)
    (phys_dim : String) : CallResult :=
  engineCall eng (EngineCall.setPhysicalDimension e.hdl edfsignal phys_dim)
    (Err.configError "set_physical_dimension")

def Edf.set_label (eng : Engine) (e : Edf) (edfsignal : Int) (label : String) :
    CallResult :=
  engineCall eng (EngineCall.setLabel e.hdl edfsignal label)
    (Err.configError "set_label")

def Edf.set_equipment (eng : Engine) (e : Edf) (equipment : String) : CallResult :=
  engineCall eng (EngineCall.setEquipment e.hdl equipment)
    (Err.configError "set_equipment")

/-- `std::time::Duration`: whole seconds (`u64`) plus the sub-second part in
microseconds (always below one million in a real `Duration`). -/
structure Dur where
  secs : Nat
  subsec_micros : Nat
deriving DecidableEq, Repr

/-- The tick computation of `Edf::set_recordingduration`:
`(duration.as_secs() as i64 * 100000 + duration.subsec_micros() as i64 / 100) as i32`,
with every cast and the `i64` arithmetic wrapping exactly as on the machine. -/
def durationTicks (d : Dur) : Int :=
  wrapI32 (wrapI64 (wrapI64 (wrapI64 d.secs * 100000) + d.subsec_micros / 100))

/-- `Edf::set_recordingduration`: range-check the computed tick count
before any engine call, then forward it. -/
def Edf.set_recordingduration (eng : Engine) (e : Edf) (d : Dur) : CallResult :=
  let t := durationTicks d
  if t < 100 ∨ t > 6000000 then
    (Except.error (Err.configError "recording_duration"), [])
  else
    engineCall eng (EngineCall.setDatarecordDuration e.hdl t)
      (Err.configError "set_datarecord_duration")

/-- `slice::chunks_mut(n)` on the remaining samples, fuelled by the list
length (each step with positive `n` consumes at least one element, so the
fuel never runs out on the paths used). -/
def chunksGo (fuel n : Nat) (xs : List EFloat) : List (List EFloat) :=
  match fuel, xs with
  | 0, _ => []
  | _, [] => []
  | fuel + 1, x :: tl => (x :: tl).take n :: chunksGo fuel n ((x :: tl).drop n)

/-- The chunks `samples.chunks_mut(samplefrequency)` yields: period-sized
pieces, the last one possibly shorter. -/
def chunksOf (n : Nat) (xs : List EFloat) : List (List EFloat) :=
  if n = 0 then [] else chunksGo xs.length n xs

/-- The write loop of `Edf::write_samples`: one
`edfwrite_physical_samples` call per chunk, stopping at the first negative
status with a write error. -/
def writeChunks (eng : Engine) (hdl : Int) : List (List EFloat) → CallResult
  | [] => (Except.ok (), [])
  | c :: rest =>
    let call := EngineCall.writePhysicalSamples hdl c
    if eng call < 0 then (Except.error Err.writeError, [call])
    else
      let r := writeChunks eng hdl rest
      (r.1, call :: r.2)

/-- `Edf::write_samples`: guard `samples.len() / samplefrequency != 1`
(integer division, exactly as the source writes it), then write chunk by
chunk. -/
def Edf.write_samples (eng : Engine) (e : Edf) (samples : List EFloat)
    (samplefrequency : Nat) : CallResult :=
  if samples.length / samplefrequency ≠ 1 then (Except.error Err.shapeError, [])
  else writeChunks eng e.hdl (chunksOf samplefrequency samples)

def Edf.write_annotation (eng : Engine) (e : Edf) (onset duration : Int)
    (description : String) : CallResult :=
  engineCall eng (EngineCall.writeAnnot e.hdl onset duration description)
    Err.annotError

/-- `EDFPatientInfo` from `writer.rs`. -/
structure EDFPatientInfo where
  patient_name : String
  patient_code : String
  sex : Int
  admin_code : String
  technician : String
  equipment : String
deriving DecidableEq, Repr

/-- `EDFChannel` from `writer.rs`. -/
structure EDFChannel where
  label : String
  transducer : String
  digital_max : Int
  digital_min : Int
  physical_max : EFloat
  physical_min : EFloat
  physical_dimension : String
  sample_frequency : Int
deriving DecidableEq, Repr

/-- `EDFHeader` from `writer.rs`. -/
structure EDFHeader where
  patient_info : EDFPatientInfo
  channels : List EDFChannel
deriving DecidableEq, Repr

/-- `EDFWriter` from `writer.rs`: path, header, and the `Option<Edf>` that
is `None` until `open()` has fully succeeded. -/
structure EDFWriter where
  file_path : String
  header : EDFHeader
  edf : Option Edf
deriving DecidableEq, Repr

/-- `EDFWriter::new`. -/
def EDFWriter.new (file_path : String) (header : EDFHeader) : EDFWriter :=
  { file_path := file_path, header := header, edf := none }

/-- One frame: per-channel sample sequences for one data-record period. -/
abbrev Frame := List (List EFloat)

/-- The channel loop of `EDFWriter::setup_header`: for each channel in
index order push label, transducer, digital_max, digital_min,
physical_max, physical_min, physical_dimension, sample_frequency, aborting
at the first failure.  (The per-channel sample-count warning in the source
is stderr logging only and produces no engine call.) -/
def setupChannels (eng : Engine) (e : Edf) (i : Nat) : List EDFChannel → CallResult
  | [] => (Except.ok (), [])
  | ch :: rest =>
    seq (Edf.set_label eng e (wrapI32 i) ch.label) fun _ =>
    seq (Edf.set_transducer eng e (wrapI32 i) ch.transducer) fun _ =>
    seq (Edf.set_digital_maximum eng e (wrapI32 i) ch.digital_max) fun _ =>
    seq (Edf.set_digital_minimum eng e (wrapI32 i) ch.digital_min) fun _ =>
    seq (Edf.set_physical_maximum eng e (wrapI32 i) ch.physical_max) fun _ =>
    seq (Edf.set_physical_minimum eng e (wrapI32 i) ch.physical_min) fun _ =>
    seq (Edf.set_physical_dimension eng e (wrapI32 i) ch.physical_dimension) fun _ =>
    seq (Edf.set_samplefrequency eng e (wrapI32 i) ch.sample_frequency) fun _ =>
    setupChannels eng e (i + 1) rest

/-- `EDFWriter::setup_header`: all patient fields in source order
(equipment, patientname, patientcode, sex, admincode, technician), then the
channel loop. -/
def EDFWriter.setup_header (eng : Engine) (w : EDFWriter) (e : Edf) : CallResult :=
  let p := w.header.patient_info
  seq (Edf.set_equipment eng e p.equipment) fun _ =>
  seq (Edf.set_patientname eng e p.patient_name) fun _ =>
  seq (Edf.set_patientcode eng e p.patient_code) fun _ =>
  seq (Edf.set_sex eng e p.sex) fun _ =>
  seq (Edf.set_admincode eng e p.admin_code) fun _ =>
  seq (Edf.set_technician eng e p.technician) fun _ =>
  setupChannels eng e 0 w.header.channels

/-- `EDFWriter::open`: build a fresh `Edf` sized for the header's channel
count, open the engine handle, run the header setup, and only then store
the `Edf` in the writer.  On any failure the writer is returned unchanged
(in particular its `edf` field keeps its previous value). -/
def EDFWriter.«open» (eng : Engine) (w : EDFWriter) :
    Except Err Unit × List EngineCall × EDFWriter :=
  let channel_count := w.header.channels.length
  let e0 := Edf.new w.file_path (wrapI32 channel_count)
  match Edf.open_file_writeonly eng e0 with
  | (Except.error e, tr, _) => (Except.error e, tr, w)
  | (Except.ok _, tr, e1) =>
    let r := EDFWriter.setup_header eng w e1
    match r.1 with
    | Except.error err => (Except.error err, tr ++ r.2, w)
    | Except.ok _ => (Except.ok (), tr ++ r.2, { w with edf := some e1 })

/-- The per-channel loop of `EDFWriter::write_sample_stream`, in lockstep
with the header's channel list (the caller has already checked the two
lists have equal length, so lockstep recursion is the source's indexed
loop). -/
def streamGo (eng : Engine) (e : Edf) : List (List EFloat) → List EDFChannel → CallResult
  | [], _ => (Except.ok (), [])
  | _ :: _, [] => (Except.ok (), [])
  | ch_data :: rest, c :: cs =>
    seq (Edf.write_samples eng e ch_data (usizeOfI32 c.sample_frequency)) fun _ =>
      streamGo eng e rest cs

/-- `EDFWriter::write_sample_stream`: not-open check, channel-count check,
then one `write_samples` per channel in index order. -/
def EDFWriter.write_sample_stream (eng : Engine) (w : EDFWriter)
    (channel_samples : List (List EFloat)) : CallResult :=
  match w.edf with
  | none => (Except.error Err.notOpen, [])
  | some e =>
    if channel_samples.length ≠ w.header.channels.length then
      (Except.error (Err.channelCountError channel_samples.length
        w.header.channels.length), [])
    else streamGo eng e channel_samples w.header.channels

/-- The repair applied to one frame by `write_multi_frames`: a frame whose
channel count differs from the previous accepted frame's is replaced whole
by that frame; otherwise each channel that `contains(&f64::NAN)` reports
is replaced by the previous frame's channel at the same index. -/
def repairFrame (prev f : Frame) : Frame :=
  if f.length ≠ prev.length then prev
  else f.enum.map fun p => if listContainsNaN p.2 then prev.getD p.1 [] else p.2

/-- The loop of `EDFWriter::write_multi_frames`: repair against the
previous accepted frame, write, and carry the written frame forward.  The
returned frame list is the in-place mutated batch: on an error the current
frame keeps its repaired value and the unprocessed tail is unchanged. -/
def wmfGo (eng : Engine) (w : EDFWriter) :
    Frame → List Frame → Except Err Unit × List EngineCall × List Frame
  | _, [] => (Except.ok (), [], [])
  | prev, f :: rest =>
    let f' := repairFrame prev f
    match EDFWriter.write_sample_stream eng w f' with
    | (Except.error e, tr) => (Except.error e, tr, f' :: rest)
    | (Except.ok _, tr) =>
      let r := wmfGo eng w f' rest
      (r.1, tr ++ r.2.1, f' :: r.2.2)

/-- `EDFWriter::write_multi_frames`: empty batch is a no-op success;
otherwise the previous accepted frame starts as the first frame of the
batch and the loop runs over the whole batch (the first frame is compared
against itself). -/
def EDFWriter.write_multi_frames (eng : Engine) (w : EDFWriter)
    (frames_data : List Frame) : Except Err Unit × List EngineCall × List Frame :=
  match frames_data with
  | [] => (Except.ok (), [], [])
  | f :: rest => wmfGo eng w f (f :: rest)

/-- `EDFWriter::write_annotation`: not-open check, then the base-layer
annotation write. -/
def EDFWriter.write_annotation (eng : Engine) (w : EDFWriter)
    (onset duration : Int) (description : String) : CallResult :=
  match w.edf with
  | none => (Except.error Err.notOpen, [])
  | some e => Edf.write_annotation eng e onset duration description

/-- `EDFWriter::finish`: `self.edf.take()` — the stored `Edf` is removed
first (so the writer ends with `edf = none` even when the close fails),
then closed when there was one. -/
def EDFWriter.finish (eng : Engine) (w : EDFWriter) :
    Except Err Unit × List EngineCall × EDFWriter :=
  match w.edf with
  | none => (Except.ok (), [], w)
  | some e =>
    let w' := { w with edf := none }
    let r := Edf.finish eng e
    (r.1, r.2, w')

/-- The error each engine call surfaces when the engine rejects it, read
off the call sites in `base.rs` (one fixed error per site). -/
def callField : EngineCall → Err
  | EngineCall.openFile .. => Err.openError
  | EngineCall.setEquipment .. => Err.configError "set_equipment"
  | EngineCall.setPatientname .. => Err.configError "set_patientname"
  | EngineCall.setPatientcode .. => Err.configError "set_patientcode"
  | EngineCall.setSex .. => Err.configError "set_sex"
  | EngineCall.setAdmincode .. => Err.configError "set_admincode"
  | EngineCall.setTechnician .. => Err.configError "set_technician"
  | EngineCall.setLabel .. => Err.configError "set_label"
  | EngineCall.setTransducer .. => Err.configError "set_transducer"
  | EngineCall.setDigitalMaximum .. => Err.configError "set_digital_maximum"
  | EngineCall.setDigitalMinimum .. => Err.configError "set_digital_minimum"
  | EngineCall.setPhysicalMaximum .. => Err.configError "set_physical_maximum"
  | EngineCall.setPhysicalMinimum .. => Err.configError "set_physical_minimum"
  | EngineCall.setPhysicalDimension .. => Err.configError "set_physical_dimension"
  | EngineCall.setSamplefrequency .. => Err.configError "set_samplefrequency"
  | EngineCall.setDatarecordDuration .. => Err.configError "set_datarecord_duration"
  | EngineCall.writePhysicalSamples .. => Err.writeError
  | EngineCall.writeAnnot .. => Err.annotError
  | EngineCall.closeFile .. => Err.closeError

/-- Run a fixed list of engine calls in order, stopping at the first one
the engine rejects and surfacing that call's error.  The trace is the
prefix of calls actually issued, the rejected one included. -/
def runCalls (eng : Engine) : List EngineCall → CallResult
  | [] => (Except.ok (), [])
  | c :: cs =>
    if eng c < 0 then (Except.error (callField c), [c])
    else
      let r := runCalls eng cs
      (r.1, c :: r.2)

/-- The fixed per-channel setter sequence of the header setup, starting at
channel index `i`. -/
def channelCalls (hdl : Int) (i : Nat) : List EDFChannel → List EngineCall
  | [] => []
  | ch :: rest =>
    EngineCall.setLabel hdl (wrapI32 i) ch.label ::
    EngineCall.setTransducer hdl (wrapI32 i) ch.transducer ::
    EngineCall.setDigitalMaximum hdl (wrapI32 i) ch.digital_max ::
    EngineCall.setDigitalMinimum hdl (wrapI32 i) ch.digital_min ::
    EngineCall.setPhysicalMaximum hdl (wrapI32 i) ch.physical_max ::
    EngineCall.setPhysicalMinimum hdl (wrapI32 i) ch.physical_min ::
    EngineCall.setPhysicalDimension hdl (wrapI32 i) ch.physical_dimension ::
    EngineCall.setSamplefrequency hdl (wrapI32 i) ch.sample_frequency ::
    channelCalls hdl (i + 1) rest

/-- The fixed patient-field setter sequence of the header setup. -/
def patientCalls (hdl : Int) (p : EDFPatientInfo) : List EngineCall :=
  [EngineCall.setEquipment hdl p.equipment,
   EngineCall.setPatientname hdl p.patient_name,
   EngineCall.setPatientcode hdl p.patient_code,
   EngineCall.setSex hdl p.sex,
   EngineCall.setAdmincode hdl p.admin_code,
   EngineCall.setTechnician hdl p.technician]

/-- The complete fixed engine-call sequence of the header setup: all
patient fields, then each channel's eight setters in index order. -/
def setupCalls (hdl : Int) (h : EDFHeader) : List EngineCall :=
  patientCalls hdl h.patient_info ++ channelCalls hdl 0 h.channels

/-- The engine-write trace `write_sample_stream` produces for one frame
when every call is accepted: per channel in order, one record write per
period-sized chunk of that channel's data. -/
def streamTrace (hdl : Int) : List (List EFloat) → List EDFChannel → List EngineCall
  | [], _ => []
  | _ :: _, [] => []
  | ch_data :: rest, c :: cs =>
    (chunksOf (usizeOfI32 c.sample_frequency) ch_data).map
      (EngineCall.writePhysicalSamples hdl) ++ streamTrace hdl rest cs

/-- The trace of a fully well-shaped batch: exactly one record write per
channel per frame, frames in order, channels in index order within each
frame, each write carrying that channel's data. -/
def batchTrace (hdl : Int) : List Frame → List EngineCall
  | [] => []
  | f :: rest => f.map (EngineCall.writePhysicalSamples hdl) ++ batchTrace hdl rest

/-- The in-place result of a successful `write_multi_frames` run: a frame
whose channel count differs from the previous accepted frame's is
overwritten with that frame, every other frame is unchanged, and the
written frame becomes the new previous accepted frame. -/
def repairBatch : Frame → List Frame → List Frame
  | _, [] => []
  | prev, f :: rest =>
    let f' := if f.length ≠ prev.length then prev else f
    f' :: repairBatch f' rest

/-- `repairBatch` started the way `write_multi_frames` starts: the previous
accepted frame is initialised to the first frame of the batch. -/
def repairBatchTop : List Frame → List Frame
  | [] => []
  | f :: rest => repairBatch f (f :: rest)

/-- An engine that accepts every call (status `0`); for `openFile` this is
handle `0`. -/
def engAccept : Engine := fun _ => 0

/-- An engine that allocates handle `7` on open but rejects the first
header setter (`set_equipment`), accepting everything else. -/
def engRejectEquip : Engine := fun c =>
  match c with
  | EngineCall.openFile .. => 7
  | EngineCall.setEquipment .. => -1
  | _ => 0

/-- A concrete channel description with the given sample frequency. -/
def sampleChannel (freq : Int) : EDFChannel :=
  { label := "L"
    transducer := "T"
    digital_max := 32767
    digital_min := -32768
    physical_max := EFloat.val 2000
    physical_min := EFloat.val (-2000)
    physical_dimension := "mV"
    sample_frequency := freq }

/-- Concrete patient metadata. -/
def patientFix : EDFPatientInfo :=
  { patient_name := "n"
    patient_code := "c"
    sex := 0
    admin_code := "a"
    technician := "t"
    equipment := "e" }

/-- A concrete header with one channel per entry of `freqs`. -/
def hdrFix (freqs : List Int) : EDFHeader :=
  { patient_info := patientFix, channels := freqs.map sampleChannel }

/-- A concrete open `Edf` handle state. -/
def edfFix : Edf :=
  { path := "a.edf", hdl := 0, filetype := Filetype.EDF, number_of_signals := 2 }

/-- An opened two-channel writer, 1 sample per record and channel. -/
def wTwoChan : EDFWriter :=
  { file_path := "a.edf", header := hdrFix [1, 1], edf := some edfFix }

/-- An opened two-channel writer, 2 samples per record and channel. -/
def wTwoChan2 : EDFWriter :=
  { file_path := "a.edf", header := hdrFix [2, 2], edf := some edfFix }

/-- A freshly constructed (never opened) writer. -/
def wFresh : EDFWriter := EDFWriter.new "a.edf" (hdrFix [1, 1])

theorem listContainsNaN_eq_false (xs : List EFloat) : listContainsNaN xs = false := by
  induction xs with
  | nil => rfl
  | cons x tl ih =>
    have hx : EFloat.ieeeEq x EFloat.nan = false := by cases x <;> rfl
    simpa [listContainsNaN, List.any_cons, hx] using ih

theorem enumFrom_nan_repair (g : Nat → List EFloat) :
    ∀ (n : Nat) (l : List (List EFloat)),
      ((List.enumFrom n l).map fun p =>
        if listContainsNaN p.2 then g p.1 else p.2) = l := by
  intro n l
  induction l generalizing n with
  | nil => rfl
  | cons x tl ih => simp [List.enumFrom, listContainsNaN_eq_false, ih]

/-- With a channel count equal to the previous accepted frame's, the
repair leaves the frame untouched: the NaN test of the source can never
report true, because IEEE `==` against NaN is always false. -/
theorem repairFrame_of_length_eq (prev f : Frame) (h : f.length = prev.length) :
    repairFrame prev f = f := by
  unfold repairFrame
  rw [if_neg (by simp [h])]
  simpa [List.enum] using enumFrom_nan_repair (fun i => prev.getD i []) 0 f

/-- With a channel count different from the previous accepted frame's, the
repair replaces the whole frame. -/
theorem repairFrame_of_length_ne (prev f : Frame) (h : f.length ≠ prev.length) :
    repairFrame prev f = prev := by
  unfold repairFrame
  rw [if_pos h]

/-- When the engine accepts every call, the chunk loop succeeds and issues
one record write per chunk. -/
theorem writeChunks_accepting (eng : Engine) (hdl : Int)
    (hacc : ∀ c, 0 ≤ eng c) (l : List (List EFloat)) :
    writeChunks eng hdl l =
      (Except.ok (), l.map (EngineCall.writePhysicalSamples hdl)) := by
  induction l with
  | nil => rfl
  | cons c rest ih =>
    have h := hacc (EngineCall.writePhysicalSamples hdl c)
    simp [writeChunks, ih, Int.not_lt.mpr h]

/-- When the buffer passes the source's `len / freq == 1` guard and the
engine accepts, `write_samples` succeeds and issues one engine write per
chunk. -/
theorem write_samples_accepting (eng : Engine) (e : Edf)
    (samples : List EFloat) (n : Nat) (hacc : ∀ c, 0 ≤ eng c)
    (hdiv : samples.length / n = 1) :
    Edf.write_samples eng e samples n =
      (Except.ok (),
        (chunksOf n samples).map (EngineCall.writePhysicalSamples e.hdl)) := by
  unfold Edf.write_samples
  rw [if_neg (by simp [hdiv])]
  exact writeChunks_accepting eng e.hdl hacc _

/-- When every channel passes the chunking guard and the engine accepts,
the per-channel loop succeeds with the chunked trace. -/
theorem streamGo_accepting (eng : Engine) (e : Edf) (hacc : ∀ c, 0 ≤ eng c) :
    ∀ (css : List (List EFloat)) (cs : List EDFChannel),
      (∀ p ∈ css.zip cs, p.1.length / usizeOfI32 p.2.sample_frequency = 1) →
      streamGo eng e css cs = (Except.ok (), streamTrace e.hdl css cs) := by
  intro css
  induction css with
  | nil => intro cs _; cases cs <;> rfl
  | cons ch rest ih =>
    intro cs hshape
    cases cs with
    | nil => rfl
    | cons c ctl =>
      have h1 : ch.length / usizeOfI32 c.sample_frequency = 1 :=
        hshape (ch, c) (by simp [List.zip_cons_cons])
      have h2 := ih ctl fun p hp => hshape p (by simp [List.zip_cons_cons, hp])
      simp [streamGo, streamTrace, seq,
        write_samples_accepting eng e ch _ hacc h1, h2]

/-- An opened writer with a channel-count-matching, guard-passing frame
writes it successfully with the chunked per-channel trace. -/
theorem write_sample_stream_accepting (eng : Engine) (w : EDFWriter) (e : Edf)
    (css : List (List EFloat)) (hopen : w.edf = some e)
    (hacc : ∀ c, 0 ≤ eng c)
    (hlen : css.length = w.header.channels.length)
    (hshape : ∀ p ∈ css.zip w.header.channels,
      p.1.length / usizeOfI32 p.2.sample_frequency = 1) :
    EDFWriter.write_sample_stream eng w css =
      (Except.ok (), streamTrace e.hdl css w.header.channels) := by
  simp only [EDFWriter.write_sample_stream, hopen]
  rw [if_neg (by simp [hlen])]
  exact streamGo_accepting eng e hacc css w.header.channels hshape

/-- Exhausted fuel or exhausted samples end the chunk loop. -/
theorem chunksGo_nil (fuel n : Nat) : chunksGo fuel n [] = [] := by
  cases fuel <;> rfl

/-- One unfolding step of the chunk loop. -/
theorem chunksGo_succ_cons (fuel n : Nat) (x : EFloat) (tl : List EFloat) :
    chunksGo (fuel + 1) n (x :: tl) =
      (x :: tl).take n :: chunksGo fuel n ((x :: tl).drop n) := rfl

/-- A buffer of exactly one period is a single chunk. -/
theorem chunksOf_eq_single (n : Nat) (xs : List EFloat) (hn : 0 < n)
    (hx : xs.length = n) : chunksOf n xs = [xs] := by
  unfold chunksOf
  rw [if_neg (Nat.pos_iff_ne_zero.mp hn)]
  obtain ⟨m, rfl⟩ : ∃ m, n = m + 1 := ⟨n - 1, by omega⟩
  cases xs with
  | nil => simp at hx
  | cons x tl =>
    rw [hx, chunksGo_succ_cons,
      List.take_of_length_le (le_of_eq hx), List.drop_eq_nil_of_le (le_of_eq hx),
      chunksGo_nil]

/-- When every channel's sample count equals its (positive) declared
frequency, the per-frame trace is exactly one write per channel, in
channel order, carrying that channel's data. -/
theorem streamTrace_exact (hdl : Int) :
    ∀ (css : List (List EFloat)) (cs : List EDFChannel),
      css.length = cs.length →
      (∀ p ∈ css.zip cs, p.1.length = usizeOfI32 p.2.sample_frequency) →
      (∀ c ∈ cs, 0 < usizeOfI32 c.sample_frequency) →
      streamTrace hdl css cs = css.map (EngineCall.writePhysicalSamples hdl) := by
  intro css
  induction css with
  | nil => intro cs _ _ _; cases cs <;> rfl
  | cons ch rest ih =>
    intro cs hlen hshape hfreq
    cases cs with
    | nil => simp at hlen
    | cons c ctl =>
      have h1 : ch.length = usizeOfI32 c.sample_frequency :=
        hshape (ch, c) (by simp [List.zip_cons_cons])
      have h2 : 0 < usizeOfI32 c.sample_frequency := hfreq c (by simp)
      have h3 := ih ctl (by simpa using hlen)
        (fun p hp => hshape p (by simp [List.zip_cons_cons, hp]))
        (fun cc hcc => hfreq cc (by simp [hcc]))
      simp [streamTrace, chunksOf_eq_single _ ch h2 h1, h3]

/-- On a batch in which every frame matches the header's channel count and
every channel passes the chunking guard, the loop of `write_multi_frames`
accepts every frame unchanged and writes them in order. -/
theorem wmfGo_well_shaped (eng : Engine) (w : EDFWriter) (e : Edf)
    (hopen : w.edf = some e) (hacc : ∀ c, 0 ≤ eng c)
    (hfreq : ∀ c ∈ w.header.channels, 0 < usizeOfI32 c.sample_frequency) :
    ∀ (frames : List Frame) (prev : Frame),
      prev.length = w.header.channels.length →
      (∀ f ∈ frames, f.length = w.header.channels.length) →
      (∀ f ∈ frames, ∀ p ∈ f.zip w.header.channels,
        p.1.length = usizeOfI32 p.2.sample_frequency) →
      wmfGo eng w prev frames = (Except.ok (), batchTrace e.hdl frames, frames) := by
  intro frames
  induction frames with
  | nil => intro prev _ _ _; rfl
  | cons f rest ih =>
    intro prev hprev hcount hshape
    have hf : f.length = w.header.channels.length := hcount f (by simp)
    have hrep : repairFrame prev f = f :=
      repairFrame_of_length_eq prev f (hf.trans hprev.symm)
    have hlenzip : ∀ p ∈ f.zip w.header.channels,
        p.1.length / usizeOfI32 p.2.sample_frequency = 1 := by
      intro p hp
      have h1 := hshape f (by simp) p hp
      have h2 : 0 < usizeOfI32 p.2.sample_frequency :=
        hfreq p.2 (List.of_mem_zip hp).2
      rw [h1]
      exact Nat.div_self h2
    have hw := write_sample_stream_accepting eng w e f hopen hacc hf hlenzip
    have htr : streamTrace e.hdl f w.header.channels =
        f.map (EngineCall.writePhysicalSamples e.hdl) :=
      streamTrace_exact e.hdl f w.header.channels (by rw [hf]) (hshape f (by simp))
        hfreq
    have hrest := ih f hf (fun g hg => hcount g (by simp [hg]))
      (fun g hg => hshape g (by simp [hg]))
    simp [wmfGo, hrep, hw, htr, hrest, batchTrace]

/-- When the loop of `write_multi_frames` returns success, the mutated
batch it leaves behind is exactly `repairBatch`: channel-count-mismatched
frames overwritten with the previous accepted frame, everything else
unchanged. -/
theorem wmfGo_frames_of_ok (eng : Engine) (w : EDFWriter) :
    ∀ (frames : List Frame) (prev : Frame),
      (wmfGo eng w prev frames).1 = Except.ok () →
      (wmfGo eng w prev frames).2.2 = repairBatch prev frames := by
  intro frames
  induction frames with
  | nil => intro prev _; rfl
  | cons f rest ih =>
    intro prev hok
    by_cases hne : f.length ≠ prev.length
    · have hrep : repairFrame prev f = prev := repairFrame_of_length_ne prev f hne
      rcases hw : EDFWriter.write_sample_stream eng w prev with ⟨res, tr⟩
      cases res with
      | error err =>
        exfalso
        simp [wmfGo, hrep, hw] at hok
      | ok u =>
        have hok' : (wmfGo eng w prev rest).1 = Except.ok () := by
          simpa [wmfGo, hrep, hw] using hok
        simp [wmfGo, hrep, hw, repairBatch, if_pos hne, ih prev hok']
    · push_neg at hne
      have hrep : repairFrame prev f = f := repairFrame_of_length_eq prev f hne
      rcases hw : EDFWriter.write_sample_stream eng w f with ⟨res, tr⟩
      cases res with
      | error err =>
        exfalso
        simp [wmfGo, hrep, hw] at hok
      | ok u =>
        have hok' : (wmfGo eng w f rest).1 = Except.ok () := by
          simpa [wmfGo, hrep, hw] using hok
        simp [wmfGo, hrep, hw, repairBatch, hne, ih f hok']

/-- Running a single accepted engine call and continuing equals running
the consed call list. -/
theorem seq_engineCall_runCalls (eng : Engine) (c : EngineCall) (er : Err)
    (h : callField c = er) (cs : List EngineCall) (k : Unit → CallResult)
    (hk : k () = runCalls eng cs) :
    seq (engineCall eng c er) k = runCalls eng (c :: cs) := by
  subst h
  by_cases hc : eng c < 0
  · simp [seq, engineCall, runCalls, hc]
  · simp [seq, engineCall, runCalls, hc, hk]

/-- The channel loop of the header setup runs exactly the fixed
per-channel call list. -/
theorem setupChannels_eq_runCalls (eng : Engine) (e : Edf) :
    ∀ (chs : List EDFChannel) (i : Nat),
      setupChannels eng e i chs = runCalls eng (channelCalls e.hdl i chs) := by
  intro chs
  induction chs with
  | nil => intro i; rfl
  | cons ch rest ih =>
    intro i
    show seq _ _ = _
    rw [channelCalls]
    exact seq_engineCall_runCalls eng _ _ rfl _ _
      (seq_engineCall_runCalls eng _ _ rfl _ _
        (seq_engineCall_runCalls eng _ _ rfl _ _
          (seq_engineCall_runCalls eng _ _ rfl _ _
            (seq_engineCall_runCalls eng _ _ rfl _ _
              (seq_engineCall_runCalls eng _ _ rfl _ _
                (seq_engineCall_runCalls eng _ _ rfl _ _
                  (seq_engineCall_runCalls eng _ _ rfl _ _ (ih (i + 1)))))))))

/-- Claim C1 (code evidence): `write_samples` guards with the integer
division `samples.len() / samplefrequency != 1` instead of divisibility.
A buffer of 4 samples at frequency 2 — a whole multiple, two periods,
which the claim says must succeed with two engine writes — is rejected
with a shape error before any engine call; a buffer of 3 samples at
frequency 2 — not a whole multiple, which the claim says must fail — is
accepted and issues two engine writes, the second carrying a ragged
one-sample chunk. -/
theorem write_samples_guard_is_div_eq_one :
    Edf.write_samples engAccept edfFix
        [EFloat.val 0, EFloat.val 0, EFloat.val 0, EFloat.val 0] 2 =
      (Except.error Err.shapeError, []) ∧
    Edf.write_samples engAccept edfFix [EFloat.val 1, EFloat.val 2, EFloat.val 3] 2 =
      (Except.ok (),
       [EngineCall.writePhysicalSamples 0 [EFloat.val 1, EFloat.val 2],
        EngineCall.writePhysicalSamples 0 [EFloat.val 3]]) :=
  ⟨rfl, rfl⟩

/-- Claim C2 (code evidence): a NaN-contaminated channel is NOT replaced
by the previous accepted frame's data.  With previous frame
`[[1],[2]]` and current frame `[[NaN],[3]]` the pipeline writes the NaN
channel verbatim to the engine and returns the batch unchanged, because
the source's `contains(&f64::NAN)` test is false for every buffer under
IEEE equality. -/
theorem nan_channel_written_verbatim :
    EDFWriter.write_multi_frames engAccept wTwoChan
        [[[EFloat.val 1], [EFloat.val 2]], [[EFloat.nan], [EFloat.val 3]]] =
      (Except.ok (),
       [EngineCall.writePhysicalSamples 0 [EFloat.val 1],
        EngineCall.writePhysicalSamples 0 [EFloat.val 2],
        EngineCall.writePhysicalSamples 0 [EFloat.nan],
        EngineCall.writePhysicalSamples 0 [EFloat.val 3]],
       [[[EFloat.val 1], [EFloat.val 2]], [[EFloat.nan], [EFloat.val 3]]]) := rfl

/-- Claim C3 (code evidence): a recording duration of 0.001 s — inside
the claim's valid range — is rejected.  The source converts the
sub-second part with `subsec_micros / 100`, so 0.001 s = 1000 µs becomes
10 ticks, below the lower bound 100, and `set_recordingduration` returns
the configuration error without any engine call. -/
theorem one_millisecond_duration_rejected :
    durationTicks ⟨0, 1000⟩ = 10 ∧
    Edf.set_recordingduration engAccept edfFix ⟨0, 1000⟩ =
      (Except.error (Err.configError "recording_duration"), []) :=
  ⟨rfl, rfl⟩

/-- Claim C4 (code evidence): when the engine allocates handle 7 but the
first header setter fails, `open()` returns the setter's error with the
writer unchanged — its `edf` field is still `none` — and the following
`finish()` succeeds while issuing NO engine call at all: the close call
for handle 7 never happens and the handle leaks. -/
theorem failed_open_then_finish_closes_nothing :
    EDFWriter.«open» engRejectEquip wFresh =
      (Except.error (Err.configError "set_equipment"),
       [EngineCall.openFile "a.edf" 1 2, EngineCall.setEquipment 7 "e"],
       wFresh) ∧
    EDFWriter.finish engRejectEquip (EDFWriter.«open» engRejectEquip wFresh).2.2 =
      (Except.ok (), [], wFresh) :=
  ⟨rfl, rfl⟩

/-- Claim C5: a frame whose channel count differs from the previous
accepted frame's is discarded whole and replaced with that frame before
writing, non-fatally: for `[F0, F1]` with mismatched `F1`, the pipeline
writes `F0`'s chunked content twice and the batch ends as `[F0, F0]`. -/
theorem mismatched_frame_discarded_and_replaced (eng : Engine) (w : EDFWriter)
    (e : Edf) (F0 F1 : Frame) (hopen : w.edf = some e)
    (hacc : ∀ c, 0 ≤ eng c)
    (hlen : F0.length = w.header.channels.length)
    (hshape : ∀ p ∈ F0.zip w.header.channels,
      p.1.length / usizeOfI32 p.2.sample_frequency = 1)
    (hcc : F1.length ≠ F0.length) :
    EDFWriter.write_multi_frames eng w [F0, F1] =
      (Except.ok (),
       streamTrace e.hdl F0 w.header.channels ++
         streamTrace e.hdl F0 w.header.channels,
       [F0, F0]) := by
  have hrep0 : repairFrame F0 F0 = F0 := repairFrame_of_length_eq F0 F0 rfl
  have hrep1 : repairFrame F0 F1 = F0 := repairFrame_of_length_ne F0 F1 hcc
  have hw := write_sample_stream_accepting eng w e F0 hopen hacc hlen hshape
  show wmfGo eng w F0 [F0, F1] = _
  simp [wmfGo, hrep0, hrep1, hw]

/-- Witness for claim C5 at a concrete opened two-channel writer. -/
theorem mismatched_frame_discarded_and_replaced_witness :
    EDFWriter.write_multi_frames engAccept wTwoChan
        [[[EFloat.val 1], [EFloat.val 2]], [[EFloat.val 9]]] =
      (Except.ok (),
       streamTrace 0 [[EFloat.val 1], [EFloat.val 2]] wTwoChan.header.channels ++
         streamTrace 0 [[EFloat.val 1], [EFloat.val 2]] wTwoChan.header.channels,
       [[[EFloat.val 1], [EFloat.val 2]], [[EFloat.val 1], [EFloat.val 2]]]) :=
  mismatched_frame_discarded_and_replaced engAccept wTwoChan edfFix
    [[EFloat.val 1], [EFloat.val 2]] [[EFloat.val 9]] rfl
    (fun _ => Int.le_refl 0) rfl (by decide) (by decide)

/-- Claim C6: a non-empty batch in which every frame matches the header's
channel count and every channel's sample count equals its (positive)
declared frequency is written with exactly one engine record write per
channel per frame, frames in order and channels in index order, each
write carrying that channel's data; the batch is left unchanged. -/
theorem well_shaped_batch_writes_once_per_channel (eng : Engine)
    (w : EDFWriter) (e : Edf) (frames : List Frame)
    (hopen : w.edf = some e) (hacc : ∀ c, 0 ≤ eng c)
    (hne : frames ≠ [])
    (hcount : ∀ f ∈ frames, f.length = w.header.channels.length)
    (hfreq : ∀ c ∈ w.header.channels, 0 < usizeOfI32 c.sample_frequency)
    (hshape : ∀ f ∈ frames, ∀ p ∈ f.zip w.header.channels,
      p.1.length = usizeOfI32 p.2.sample_frequency) :
    EDFWriter.write_multi_frames eng w frames =
      (Except.ok (), batchTrace e.hdl frames, frames) := by
  cases frames with
  | nil => exact absurd rfl hne
  | cons f rest =>
    show wmfGo eng w f (f :: rest) = _
    exact wmfGo_well_shaped eng w e hopen hacc hfreq (f :: rest) f
      (hcount f (by simp)) hcount hshape

/-- Witness for claim C6 at a concrete opened two-channel writer with
frequency 2 and two well-shaped frames. -/
theorem well_shaped_batch_writes_once_per_channel_witness :
    EDFWriter.write_multi_frames engAccept wTwoChan2
        [[[EFloat.val 1, EFloat.val 2], [EFloat.val 3, EFloat.val 4]],
         [[EFloat.val 5, EFloat.val 6], [EFloat.val 7, EFloat.val 8]]] =
      (Except.ok (),
       batchTrace 0
         [[[EFloat.val 1, EFloat.val 2], [EFloat.val 3, EFloat.val 4]],
          [[EFloat.val 5, EFloat.val 6], [EFloat.val 7, EFloat.val 8]]],
       [[[EFloat.val 1, EFloat.val 2], [EFloat.val 3, EFloat.val 4]],
        [[EFloat.val 5, EFloat.val 6], [EFloat.val 7, EFloat.val 8]]]) :=
  well_shaped_batch_writes_once_per_channel engAccept wTwoChan2 edfFix
    [[[EFloat.val 1, EFloat.val 2], [EFloat.val 3, EFloat.val 4]],
     [[EFloat.val 5, EFloat.val 6], [EFloat.val 7, EFloat.val 8]]] rfl
    (fun _ => Int.le_refl 0) (by decide) (by decide) (by decide) (by decide)

/-- Claim C7: `finish()` is idempotent — whatever the writer's state, a
second `finish()` issues no engine call (in particular no close) and
returns success, because the first call removed the stored handle via
`take()`. -/
theorem finish_idempotent (eng : Engine) (w : EDFWriter) :
    EDFWriter.finish eng (EDFWriter.finish eng w).2.2 =
      (Except.ok (), [], (EDFWriter.finish eng w).2.2) := by
  cases h : w.edf <;> simp [EDFWriter.finish, h]

/-- Claim C8: the header setup is exactly the fixed call list — all
patient fields first, then per channel in index order label, transducer,
digital_max, digital_min, physical_max, physical_min, physical_dimension,
sample_frequency — run in order and aborted at the first engine
rejection, surfacing that field's error (`runCalls` stops at the first
rejected call and returns `callField` of it). -/
theorem setup_header_is_fixed_call_list (eng : Engine) (w : EDFWriter) (e : Edf) :
    EDFWriter.setup_header eng w e = runCalls eng (setupCalls e.hdl w.header) := by
  simp only [EDFWriter.setup_header]
  rw [setupCalls, patientCalls]
  exact seq_engineCall_runCalls eng _ _ rfl _ _
    (seq_engineCall_runCalls eng _ _ rfl _ _
      (seq_engineCall_runCalls eng _ _ rfl _ _
        (seq_engineCall_runCalls eng _ _ rfl _ _
          (seq_engineCall_runCalls eng _ _ rfl _ _
            (seq_engineCall_runCalls eng _ _ rfl _ _
              (setupChannels_eq_runCalls eng e w.header.channels 0))))))

/-- Claim C9: on a writer whose `open()` has not succeeded (`edf` is still
`none`), both the sample-stream write and the annotation write return the
not-open error and issue no engine call. -/
theorem writes_before_open_rejected (eng : Engine) (w : EDFWriter)
    (css : List (List EFloat)) (onset dur : Int) (desc : String)
    (h : w.edf = none) :
    EDFWriter.write_sample_stream eng w css = (Except.error Err.notOpen, []) ∧
    EDFWriter.write_annotation eng w onset dur desc =
      (Except.error Err.notOpen, []) := by
  constructor
  · simp [EDFWriter.write_sample_stream, h]
  · simp [ EDFWriter.write_annotation, h]

/-- Witness for claim C9 at a freshly constructed writer. -/
theorem writes_before_open_rejected_witness :
    EDFWriter.write_sample_stream engAccept wFresh [[EFloat.val 1]] =
      (Except.error Err.notOpen, []) ∧
    EDFWriter.write_annotation engAccept wFresh 0 0 "x" =
      (Except.error Err.notOpen, []) :=
  writes_before_open_rejected engAccept wFresh [[EFloat.val 1]] 0 0 "x" rfl

/-- Claim C10 (counterexample): a frame containing a NaN value — which
per the claim triggers a not-a-number repair — is NOT overwritten in the
caller's batch: after the call the batch still holds the NaN channel
verbatim, not the previous frame's substituted data. -/
theorem nan_frame_not_overwritten :
    (EDFWriter.write_multi_frames engAccept wTwoChan
        [[[EFloat.val 5], [EFloat.val 6]], [[EFloat.nan], [EFloat.val 7]]]).2.2 =
      [[[EFloat.val 5], [EFloat.val 6]], [[EFloat.nan], [EFloat.val 7]]] ∧
    [[EFloat.nan], [EFloat.val 7]] ≠ [[EFloat.val 5], [EFloat.val 7]] :=
  ⟨rfl, by decide⟩

/-- Claim C10 (amended): on a successful run, `write_multi_frames` leaves
the caller's batch mutated exactly as `repairBatch` describes: every
frame whose channel count differed from the previous accepted frame's is
overwritten with a copy of that frame, and every other frame — including
frames containing NaN values, which the code never detects — is
unchanged. -/
theorem write_multi_frames_in_place_result (eng : Engine) (w : EDFWriter)
    (frames : List Frame)
    (hok : (EDFWriter.write_multi_frames eng w frames).1 = Except.ok ()) :
    (EDFWriter.write_multi_frames eng w frames).2.2 = repairBatchTop frames := by
  cases frames with
  | nil => rfl
  | cons f rest =>
    show (wmfGo eng w f (f :: rest)).2.2 = repairBatch f (f :: rest)
    exact wmfGo_frames_of_ok eng w (f :: rest) f hok

/-- Witness for the amended claim C10: a concrete batch with a
channel-count-mismatched second frame is returned with that frame
overwritten by the first. -/
theorem write_multi_frames_in_place_result_witness :
    (EDFWriter.write_multi_frames engAccept wTwoChan
        [[[EFloat.val 1], [EFloat.val 2]], [[EFloat.val 9]]]).2.2 =
      repairBatchTop [[[EFloat.val 1], [EFloat.val 2]], [[EFloat.val 9]]] :=
  write_multi_frames_in_place_result engAccept wTwoChan
    [[[EFloat.val 1], [EFloat.val 2]], [[EFloat.val 9]]] rfl

end Edflib
